import Mathlib

/-!
Shallow embedding of the steamweb request pipeline, the in-memory
result cache, the schema-items pagination loop, and the ancillary
parsing helpers, translated from the Go sources of the repository
(the web_api source and the cache source). Machine integers are
modelled as Int or Nat, Go error values as an explicit inductive type,
and the HTTP transport as a caller-supplied stub function.
-/

deriving instance DecidableEq for Except

/-- Model of a Go error value as built by the pkg errors library: a base
error or a wrapped error carrying a message and a cause. -/
inductive GoErr where
  | base (msg : String)
  | wrapped (msg : String) (cause : GoErr)
deriving DecidableEq

/-- Model of Wrapf from the pkg errors library: wrapping a nil error
yields nil, wrapping a non-nil error adds a message layer around it. -/
def goWrapf : Option GoErr → String → Option GoErr
  | none, _ => none
  | some e, msg => some (GoErr.wrapped msg e)

/-- Model of url.Values: a mapping from parameter names to lists of
values, represented as a key-unique association list. -/
abbrev QueryValues := List (String × List String)

/-- Model of the Set method on url.Values: replace the entry for the key
with a single-element value list. -/
def valuesSet (vs : QueryValues) (k v : String) : QueryValues :=
  vs.filter (fun p => p.1 ≠ k) ++ [(k, [v])]

/-- Model of the Encode method on url.Values at the level of decoded
key and value pairs: entries are emitted in key-sorted order, one pair
per value. Percent escaping of the text is not modelled; the claims
concern only which pairs occur in the outgoing query. -/
def encodeValues (vs : QueryValues) : List (String × String) :=
  (List.mergeSort vs (fun a b => decide (a.1 ≤ b.1))).flatMap
    (fun p => p.2.map (fun v => (p.1, v)))

/-- An outbound GET request: the endpoint path and the decoded query
pairs. -/
structure HTTPRequest where
  path : String
  query : List (String × String)
deriving DecidableEq

/-- A transport response: the HTTP status code and an undecoded body. -/
structure HTTPResponse (β : Type) where
  statusCode : Nat
  body : β

/-- The error conditions produced by apiRequest. -/
inductive ApiError where
  | noAPIKey
  | serviceUnavailable
  | rateLimited
  | invalidStatusCode (code : Nat)
  | transportFailure (msg : String)
  | decodeFailure (msg : String)
deriving DecidableEq

/-- The request assembled by apiRequest before the client call. The two
extra parameters key and format are injected only when the caller passed
a non-nil values mapping, mirroring the nil guard in the source. -/
def buildRequest (path : String) (values : Option QueryValues) (apiKey : String) : HTTPRequest :=
  match values with
  | none => { path := path, query := [] }
  | some vs =>
      { path := path
        query := encodeValues (valuesSet (valuesSet vs "key" apiKey) "format" "json") }

/-- Embedding of apiRequest from the web_api source: missing-key
precondition, request build, transport call, JSON decode of the body and
then status inspection, in the order of the source. The decode of the
body is modelled by the caller-supplied decode function standing for the
JSON unmarshal of the target shape. The second component records the
request passed to the Do call of the client, none when no network call
was made. The context timeout and the request constructor are resource
plumbing with no failure path relevant to the claims and are not
modelled. -/
def apiRequest {α β : Type} (apiKey : String) (path : String)
    (values : Option QueryValues)
    (client : HTTPRequest → Except String (HTTPResponse β))
    (decode : β → Except String α) :
    Except ApiError α × Option HTTPRequest :=
  if apiKey = "" then (Except.error ApiError.noAPIKey, none)
  else
    let req := buildRequest path values apiKey
    match client req with
    | Except.error e => (Except.error (ApiError.transportFailure e), some req)
    | Except.ok resp =>
      match decode resp.body with
      | Except.error e => (Except.error (ApiError.decodeFailure e), some req)
      | Except.ok val =>
        if resp.statusCode ≠ 200 then
          if resp.statusCode = 503 then (Except.error ApiError.serviceUnavailable, some req)
          else if resp.statusCode = 429 then (Except.error ApiError.rateLimited, some req)
          else (Except.error (ApiError.invalidStatusCode resp.statusCode), some req)
        else (Except.ok val, some req)

/-- Whether a recorded outgoing request exists and its query holds the
given pair. -/
def sentQueryContains (sent : Option HTTPRequest) (p : String × String) : Bool :=
  match sent with
  | none => false
  | some r => decide (p ∈ r.query)

/-- One page of the schema-items endpoint: the items of the page and the
next cursor. -/
structure SchemaPage (α : Type) where
  items : List α
  next : Nat

/-- Embedding of the loop body of GetSchemaItems: fetch the page at the
current cursor, stop when the next cursor of the response is zero before
appending that page, otherwise append the items and advance the cursor.
Fuel bounds the number of iterations of the source loop; none means the
fuel ran out before the loop stopped. -/
def getSchemaItemsLoop {α : Type} (fetch : Nat → Except ApiError (SchemaPage α)) :
    Nat → Nat → List α → Option (Except ApiError (List α))
  | 0, _, _ => none
  | fuel + 1, page, items =>
    match fetch page with
    | Except.error e => some (Except.error e)
    | Except.ok resp =>
      if resp.next = 0 then some (Except.ok items)
      else getSchemaItemsLoop fetch fuel resp.next (items ++ resp.items)

/-- Embedding of GetSchemaItems: drive the loop from cursor zero with an
empty accumulator. The fetch argument stands for the executor invocation
with the current cursor as the start parameter. -/
def GetSchemaItems {α : Type} (fetch : Nat → Except ApiError (SchemaPage α)) (fuel : Nat) :
    Option (Except ApiError (List α)) :=
  getSchemaItemsLoop fetch fuel 0 []

/-- Embedding of SetKey: the state is the package-level apiKey; the
result is the returned error paired with the key after the call. The
length check of the source is on the byte length of the string. -/
def SetKey (key : String) (apiKey : String) : Option GoErr × String :=
  if key.utf8ByteSize ≠ 32 ∧ key.utf8ByteSize ≠ 0 then
    (some (GoErr.base "Tried to set invalid key, must be 32 chars or 0 to remove it"), apiKey)
  else (none, key)

/-- Embedding of Key: read the configured key. -/
def Key (apiKey : String) : String := apiKey

/-- Model of a Go interface value as stored in the type-erased cache:
nil, some non-cache payload, or a boxed cacheValue record. -/
inductive GoValue where
  | nil : GoValue
  | payload (tag : Nat) : GoValue
  | boxedCache (created : Int) (maxAge : Int) (value : GoValue) : GoValue
deriving DecidableEq

/-- The cache entry record: creation time and max age, both in seconds,
plus the stored value. -/
structure cacheValue where
  Created : Int
  MaxAge : Int
  value : GoValue
deriving DecidableEq

/-- Embedding of the expired method on cacheValue: the age of the entry
is strictly greater than its max age at the given time. -/
def cacheValue.expired (v : cacheValue) (now : Int) : Bool :=
  now - v.Created > v.MaxAge

/-- Boxing a cacheValue record into an interface value, as happens when
the get method returns the record itself. -/
def boxCacheValue (v : cacheValue) : GoValue :=
  GoValue.boxedCache v.Created v.MaxAge v.value

/-- The closed enumeration of cache keys of the source. -/
inductive cacheKey where
  | ckApps
  | ckAPIList
  | ckStoreMetaData
  | ckSchemaURL
  | ckSchemaItems
  | ckSchemaOverview
deriving DecidableEq

/-- The cache map. Lazy expiry never removes slots, so the state is the
mapping of keys to their most recently stored entry. -/
def MemoryCache := cacheKey → Option cacheValue

/-- Embedding of the get method of memoryCache at time now: a missing
key gives nil and false; an expired entry gives the boxed entry and
false; otherwise the boxed entry and true. The source returns the entry
record v in both found branches, not the field holding the stored
value. -/
def cacheGet (c : MemoryCache) (k : cacheKey) (now : Int) : GoValue × Bool :=
  match c k with
  | none => (GoValue.nil, false)
  | some v => if v.expired now then (boxCacheValue v, false) else (boxCacheValue v, true)

/-- The package-level default expiry in seconds. -/
def cacheExpiry : Int := 900

/-- The expiry chosen by the set method from its optional variadic
argument: the first element when present, the default otherwise. -/
def expiryOf (customExpiry : List Int) : Int :=
  match customExpiry with
  | [] => cacheExpiry
  | e :: _ => e

/-- Embedding of the set method of memoryCache at time now:
unconditionally overwrite the slot with a fresh entry created now. -/
def cacheSet (c : MemoryCache) (k : cacheKey) (value : GoValue)
    (customExpiry : List Int) (now : Int) : MemoryCache :=
  fun k2 =>
    if k2 = k then some { Created := now, MaxAge := expiryOf customExpiry, value := value }
    else c k2

/-- One set operation in a cache history. -/
structure CacheOp where
  key : cacheKey
  value : GoValue
  customExpiry : List Int
  time : Int

/-- The cache state after a chronological list of set operations applied
to the empty cache. -/
def runOps (ops : List CacheOp) : MemoryCache :=
  ops.foldl (fun c op => cacheSet c op.key op.value op.customExpiry op.time) (fun _ => none)

/-- The most recent set operation for a key in a chronological history,
if any. -/
def lastSetFor (k : cacheKey) (ops : List CacheOp) : Option CacheOp :=
  ops.reverse.find? (fun op => op.key = k)

/-- Whether pat occurs at the head of s. -/
def matchesHead : List Char → List Char → Bool
  | [], _ => true
  | _ :: _, [] => false
  | a :: as, b :: bs => a = b && matchesHead as bs

/-- Model of Contains from the strings library: pat occurs somewhere in
s, including at the very end. -/
def containsSub (pat : List Char) : List Char → Bool
  | [] => matchesHead pat []
  | c :: rest => matchesHead pat (c :: rest) || containsSub pat rest

/-- Model of slicing the string from the Index of pat plus its length:
the suffix after the first occurrence of pat, empty when pat is
absent. -/
def afterFirst (pat : List Char) : List Char → List Char
  | [] => []
  | c :: rest =>
    if matchesHead pat (c :: rest) then (c :: rest).drop pat.length
    else afterFirst pat rest

/-- The decimal digit run read left to right with an accumulator; none
when a non-digit occurs. -/
def digitsToNatAux (acc : Nat) : List Char → Option Nat
  | [] => some acc
  | c :: rest =>
    if c.isDigit then digitsToNatAux (acc * 10 + (c.toNat - 48)) rest
    else none

/-- Model of ParseInt from the strconv library at base ten and bit size
sixty four: optional sign, nonempty digit run, and the value must fit in
a signed sixty-four-bit integer. -/
def parseInt64 (s : List Char) : Except GoErr Int :=
  let signAndDigits : Bool × List Char :=
    match s with
    | '-' :: rest => (true, rest)
    | '+' :: rest => (false, rest)
    | l => (false, l)
  if signAndDigits.2.isEmpty then Except.error (GoErr.base "invalid syntax")
  else
    match digitsToNatAux 0 signAndDigits.2 with
    | none => Except.error (GoErr.base "invalid syntax")
    | some n =>
      let v : Int := if signAndDigits.1 then -(n : Int) else (n : Int)
      if v < -(2 ^ 63) ∨ (2 ^ 63 - 1) < v then Except.error (GoErr.base "value out of range")
      else Except.ok v

/-- Model of FormatInt from the strconv library at base ten: the decimal
string of the integer, with a leading minus sign when negative. -/
def formatInt (n : Int) : String := toString n

/-- Outcome of ResolveVanityURL: the resolved id (zero for the zero
value id), the returned error, and whether the remote resolution call
was made. -/
structure VanityOutcome where
  id : Int
  err : Option GoErr
  networkCalled : Bool
deriving DecidableEq

/-- The profiles URL marker of the source. -/
def profilesMarker : List Char := "steamcommunity.com/profiles/".data

/-- The id URL marker of the source. -/
def idMarker : List Char := "steamcommunity.com/id/".data

/-- Embedding of ResolveVanityURL: remove all spaces; when the profiles
marker occurs, strip a trailing slash, parse the trailing segment and
check its decimal width, all before any network call; when the id marker
occurs, strip it and resolve remotely; otherwise resolve the whole
string remotely. The remote argument stands for the executor call and
the extraction from its response. In the branch where the parse
succeeded but the width check fails, the source wraps the err variable
of the parse, which is nil there. -/
def ResolveVanityURL (remote : List Char → Int × Option GoErr) (query0 : String) : VanityOutcome :=
  let query := query0.data.filter (fun c => c ≠ ' ')
  if containsSub profilesMarker query then
    let query1 := if query.getLast? = some '/' then query.dropLast else query
    match parseInt64 (afterFirst profilesMarker query1) with
    | Except.error e =>
        { id := 0, err := goWrapf (some e) "Failed to parse int from query", networkCalled := false }
    | Except.ok output =>
        if (formatInt output).length ≠ 17 then
          { id := 0, err := goWrapf none "Invalid string length", networkCalled := false }
        else { id := output, err := none, networkCalled := false }
  else
    let query2 :=
      if containsSub idMarker query then
        let query1 := if query.getLast? = some '/' then query.dropLast else query
        afterFirst idMarker query1
      else query
    let res := remote query2
    { id := res.1, err := res.2, networkCalled := true }

/-- Stubbed collaborators of GetGroupMembers: the Do call of the
transport, the body read, and the regex captures of the steamID64 digit
runs in the body. -/
structure GroupScrapeStub where
  doResult : Except GoErr String
  readResult : String → Except GoErr String
  captures : String → List (List Char)

/-- The member accumulation loop over the regex captures: collect the
ids in order and abort on the first invalid one. -/
def collectMembers (sidValid : List Char → Bool) : List (List Char) → Except GoErr (List (List Char))
  | [] => Except.ok []
  | m :: rest =>
    if sidValid m then (collectMembers sidValid rest).map (fun l => m :: l)
    else Except.error (GoErr.base "got invalid id")

/-- Embedding of GetGroupMembers: group id validity precondition,
request construction (which succeeds, leaving the reqErr variable nil),
transport call, body read, capture loop. On a transport or read failure
the source wraps the reqErr variable, which is nil at both points. -/
def GetGroupMembers (stub : GroupScrapeStub) (sidValid : List Char → Bool)
    (groupIDValid : Bool) : Option (List (List Char)) × Option GoErr :=
  if !groupIDValid then (none, some (GoErr.base "Invalid steam group ID"))
  else
    let reqErr : Option GoErr := none
    match stub.doResult with
    | Except.error _ => (none, goWrapf reqErr "Failed to perform request")
    | Except.ok resp =>
      match stub.readResult resp with
      | Except.error _ => (none, goWrapf reqErr "Failed to read response body")
      | Except.ok body =>
        match collectMembers sidValid (stub.captures body) with
        | Except.error e => (none, some e)
        | Except.ok sids => (some sids, none)

/-- Helper: whenever the key is configured, apiRequest passes exactly
the built request to the Do call of the client. -/
theorem apiRequest_snd_eq {α β : Type} (key path : String) (values : Option QueryValues)
    (client : HTTPRequest → Except String (HTTPResponse β)) (decode : β → Except String α)
    (hkey : key ≠ "") :
    (apiRequest key path values client decode).2 = some (buildRequest path values key) := by
  unfold apiRequest
  rw [if_neg hkey]
  cases hc : client (buildRequest path values key) with
  | error e => simp [hc]
  | ok resp =>
    cases hd : decode resp.body with
    | error e => simp [hc, hd]
    | ok val =>
      by_cases hs : resp.statusCode = 200
      · simp [hc, hd, hs]
      · by_cases h503 : resp.statusCode = 503
        · simp [hc, hd, hs, h503]
        · by_cases h429 : resp.statusCode = 429
          · simp [hc, hd, hs, h503, h429]
          · simp [hc, hd, hs, h503, h429]

/-- Helper: a pair whose key maps to a value list containing the value
occurs in the encoded query. -/
theorem mem_encodeValues {vs : QueryValues} {k v : String} {l : List String}
    (hl : (k, l) ∈ vs) (hv : v ∈ l) : (k, v) ∈ encodeValues vs := by
  unfold encodeValues
  rw [List.mem_flatMap]
  refine ⟨(k, l), List.mem_mergeSort.mpr hl, ?_⟩
  rw [List.mem_map]
  exact ⟨v, hv, rfl⟩

/-- Helper: the Set method puts the single-element entry for its key
into the mapping. -/
theorem valuesSet_mem_self (vs : QueryValues) (k v : String) :
    (k, [v]) ∈ valuesSet vs k v := by
  unfold valuesSet
  exact List.mem_append_right _ (List.mem_singleton.mpr rfl)

/-- Helper: the Set method keeps every entry whose key differs from the
one being set. -/
theorem valuesSet_mem_of_ne {vs : QueryValues} {k1 : String} {l : List String}
    {k2 : String} (v2 : String) (hmem : (k1, l) ∈ vs) (hne : k1 ≠ k2) :
    (k1, l) ∈ valuesSet vs k2 v2 := by
  unfold valuesSet
  refine List.mem_append_left _ (List.mem_filter.mpr ⟨hmem, ?_⟩)
  simpa using hne

/-- Helper: the cache built by folding set operations over any initial
state maps each key to the entry of the most recent set for it, and to
the initial state when no set for it occurs. -/
theorem foldl_cacheSet_lookup (ops : List CacheOp) (c : MemoryCache) (k : cacheKey) :
    (ops.foldl (fun m op => cacheSet m op.key op.value op.customExpiry op.time) c) k =
      (match ops.reverse.find? (fun op => decide (op.key = k)) with
        | some op => some { Created := op.time, MaxAge := expiryOf op.customExpiry, value := op.value }
        | none => c k) := by
  induction ops generalizing c with
  | nil => rfl
  | cons op rest ih =>
    rw [List.foldl_cons, ih, List.reverse_cons, List.find?_append]
    cases hfind : rest.reverse.find? (fun op => decide (op.key = k)) with
    | some op2 => rfl
    | none =>
      by_cases hk : op.key = k
      · subst hk
        simp [List.find?, cacheSet]
      · have hk2 : ¬ k = op.key := fun h => hk h.symm
        simp [List.find?, cacheSet, hk, hk2]

/-- Helper: the cache built from a history maps each key to the entry of
the most recent set for it. -/
theorem runOps_lookup (ops : List CacheOp) (k : cacheKey) :
    runOps ops k =
      (lastSetFor k ops).map
        (fun op =>
          ({ Created := op.time, MaxAge := expiryOf op.customExpiry, value := op.value } : cacheValue)) := by
  unfold runOps lastSetFor
  rw [foldl_cacheSet_lookup]
  cases hfind : ops.reverse.find? (fun op => decide (op.key = k)) with
  | some op => simp
  | none => simp

/-- Helper: a boxed cache entry is never structurally equal to the value
it stores, because it strictly contains it. -/
theorem boxedCache_ne_value : ∀ (v : GoValue) (c m : Int), GoValue.boxedCache c m v ≠ v := by
  intro v
  induction v with
  | nil => intro c m h; exact GoValue.noConfusion h
  | payload t => intro c m h; exact GoValue.noConfusion h
  | boxedCache c2 m2 v2 ih =>
    intro c m h
    injection h with h1 h2 h3
    exact ih c2 m2 h3

/-- C1: the pagination loop of GetSchemaItems starts at cursor zero,
performs the termination check on a zero next cursor before appending
that page, and advances the cursor only on non-terminal pages; on the
stub page sequence with items a, b and next one followed by items c, d
and next zero, the accumulated result is exactly a, b and the terminal
items are never appended. -/
theorem GetSchemaItems_drops_terminal_page {α : Type} (fetch : Nat → Except ApiError (SchemaPage α))
    (a b c d : α) (fuel : Nat)
    (h0 : fetch 0 = Except.ok { items := [a, b], next := 1 })
    (h1 : fetch 1 = Except.ok { items := [c, d], next := 0 }) :
    GetSchemaItems fetch (fuel + 2) = some (Except.ok [a, b]) := by
  unfold GetSchemaItems
  show getSchemaItemsLoop fetch (fuel + 1 + 1) 0 [] = _
  simp [getSchemaItemsLoop, h0, h1]

/-- Witness for C1 at a concrete two-page stub. -/
theorem GetSchemaItems_drops_terminal_page_witness :
    GetSchemaItems
        (fun n =>
          if n = 0 then Except.ok { items := [10, 11], next := 1 }
          else Except.ok { items := [12, 13], next := 0 })
        2 = some (Except.ok [10, 11]) :=
  GetSchemaItems_drops_terminal_page _ 10 11 12 13 0 rfl rfl

/-- C2: with a configured key and a decodable body, the executor maps
status 200 to success, 503 to the ServiceUnavailable error, 429 to the
RateLimited error, and any other status to the invalid status code
error carrying the numeric code. -/
theorem apiRequest_status_mapping {α β : Type} (key path : String)
    (values : Option QueryValues) (status : Nat) (body : β)
    (decode : β → Except String α) (val : α)
    (hkey : key ≠ "") (hdec : decode body = Except.ok val) :
    (apiRequest key path values (fun _ => Except.ok { statusCode := status, body := body })
        decode).1 =
      (if status = 200 then Except.ok val
       else if status = 503 then Except.error ApiError.serviceUnavailable
       else if status = 429 then Except.error ApiError.rateLimited
       else Except.error (ApiError.invalidStatusCode status)) := by
  unfold apiRequest
  rw [if_neg hkey]
  by_cases h200 : status = 200
  · simp [hdec, h200]
  · by_cases h503 : status = 503
    · simp [hdec, h200, h503]
    · by_cases h429 : status = 429
      · simp [hdec, h200, h503, h429]
      · simp [hdec, h200, h503, h429]

/-- Witness for C2 at the four stub statuses of the spec. -/
theorem apiRequest_status_mapping_witness :
    (apiRequest "k" "/x" none (fun _ => Except.ok { statusCode := 503, body := true })
        (fun b => Except.ok b)).1 = Except.error ApiError.serviceUnavailable ∧
    (apiRequest "k" "/x" none (fun _ => Except.ok { statusCode := 429, body := true })
        (fun b => Except.ok b)).1 = Except.error ApiError.rateLimited ∧
    (apiRequest "k" "/x" none (fun _ => Except.ok { statusCode := 500, body := true })
        (fun b => Except.ok b)).1 = Except.error (ApiError.invalidStatusCode 500) ∧
    (apiRequest "k" "/x" none (fun _ => Except.ok { statusCode := 200, body := true })
        (fun b => Except.ok b)).1 = Except.ok true := by
  refine ⟨?_, ?_, ?_, ?_⟩ <;>
    · rw [apiRequest_status_mapping "k" "/x" none _ true (fun b => Except.ok b) true
        (by decide) rfl]
      decide

/-- C3 counterexample: with a nil values mapping, as passed by
GetAppList, the executor still issues the GET, but with an empty query
string, so neither the configured key nor the format indicator is
present in the outgoing request. -/
theorem apiRequest_nil_values_counterexample :
    ((apiRequest "abcdefghabcdefghabcdefghabcdefgh" "/ISteamApps/GetAppList/v2" none
        (fun _ => Except.ok { statusCode := 200, body := (0 : Nat) })
        (fun b => Except.ok b)).2 =
      some { path := "/ISteamApps/GetAppList/v2", query := [] }) ∧
    sentQueryContains
        ((apiRequest "abcdefghabcdefghabcdefghabcdefgh" "/ISteamApps/GetAppList/v2" none
          (fun _ => Except.ok { statusCode := 200, body := (0 : Nat) })
          (fun b => Except.ok b)).2)
        ("key", "abcdefghabcdefghabcdefghabcdefgh") = false ∧
    sentQueryContains
        ((apiRequest "abcdefghabcdefghabcdefghabcdefgh" "/ISteamApps/GetAppList/v2" none
          (fun _ => Except.ok { statusCode := 200, body := (0 : Nat) })
          (fun b => Except.ok b)).2)
        ("format", "json") = false := by
  decide

/-- C3 amended: whenever the caller supplies a non-nil query mapping and
a key is configured, the outgoing request carries the configured key
under the parameter name key and the fixed value json under the
parameter name format. -/
theorem apiRequest_injects_key_format {α β : Type} (key path : String) (vs : QueryValues)
    (client : HTTPRequest → Except String (HTTPResponse β)) (decode : β → Except String α)
    (hkey : key ≠ "") :
    sentQueryContains (apiRequest key path (some vs) client decode).2 ("key", key) = true ∧
    sentQueryContains (apiRequest key path (some vs) client decode).2 ("format", "json") = true := by
  rw [apiRequest_snd_eq key path (some vs) client decode hkey]
  simp only [sentQueryContains, buildRequest, decide_eq_true_eq]
  constructor
  · exact mem_encodeValues
      (valuesSet_mem_of_ne "json" (valuesSet_mem_self vs "key" key) (by decide))
      (List.mem_singleton.mpr rfl)
  · exact mem_encodeValues
      (valuesSet_mem_self (valuesSet vs "key" key) "format" "json")
      (List.mem_singleton.mpr rfl)

/-- Witness for the amended C3 at a concrete caller mapping. -/
theorem apiRequest_injects_key_format_witness :
    sentQueryContains
        ((apiRequest "abcdefghabcdefghabcdefghabcdefgh" "/ISteamUser/GetFriendList/v1"
          (some [("steamid", ["76561197961279983"])])
          (fun _ => Except.ok { statusCode := 200, body := (0 : Nat) })
          (fun b => Except.ok b)).2)
        ("key", "abcdefghabcdefghabcdefghabcdefgh") = true ∧
    sentQueryContains
        ((apiRequest "abcdefghabcdefghabcdefghabcdefgh" "/ISteamUser/GetFriendList/v1"
          (some [("steamid", ["76561197961279983"])])
          (fun _ => Except.ok { statusCode := 200, body := (0 : Nat) })
          (fun b => Except.ok b)).2)
        ("format", "json") = true :=
  apiRequest_injects_key_format "abcdefghabcdefghabcdefghabcdefgh" "/ISteamUser/GetFriendList/v1"
    [("steamid", ["76561197961279983"])]
    (fun _ => Except.ok { statusCode := 200, body := (0 : Nat) })
    (fun b => Except.ok b) (by decide)

/-- C4: the body decode is attempted before the status inspection, so a
response whose body fails to decode yields the decode failure error and
not the status error, whatever the status code is. -/
theorem apiRequest_decode_checked_first {α β : Type} (key path : String)
    (values : Option QueryValues) (status : Nat) (body : β)
    (decode : β → Except String α) (msg : String)
    (hkey : key ≠ "") (hdec : decode body = Except.error msg) :
    (apiRequest key path values (fun _ => Except.ok { statusCode := status, body := body })
        decode).1 = Except.error (ApiError.decodeFailure msg) := by
  unfold apiRequest
  rw [if_neg hkey]
  simp [hdec]

/-- Witness for C4 at a non-200 status with an undecodable body. -/
theorem apiRequest_decode_checked_first_witness :
    (apiRequest "k" "/x" none (fun _ => Except.ok { statusCode := 500, body := (0 : Nat) })
        (fun _ => (Except.error "Failed to decode JSON response" : Except String Nat))).1 =
      Except.error (ApiError.decodeFailure "Failed to decode JSON response") :=
  apiRequest_decode_checked_first "k" "/x" none 500 0
    (fun _ => (Except.error "Failed to decode JSON response" : Except String Nat))
    "Failed to decode JSON response" (by decide) rfl

/-- C5: with an empty configured API key, apiRequest returns the
NoAPIKey error at once and the Do call of the transport is never made,
whatever the path, mapping, client and decoder are. -/
theorem apiRequest_no_key_short_circuit {α β : Type} (path : String)
    (values : Option QueryValues)
    (client : HTTPRequest → Except String (HTTPResponse β))
    (decode : β → Except String α) :
    apiRequest "" path values client decode = (Except.error ApiError.noAPIKey, none) := rfl

/-- C6: for any history of set operations and any query time, the get
method reports found false exactly when either no set for the key ever
occurred or the most recent entry stored under the key has age strictly
greater than its max age at that time; otherwise it reports found
true. -/
theorem cacheGet_found_false_iff (ops : List CacheOp) (k : cacheKey) (t : Int) :
    (cacheGet (runOps ops) k t).2 = false ↔
      (lastSetFor k ops = none ∨
        ∃ op, lastSetFor k ops = some op ∧ t - op.time > expiryOf op.customExpiry) := by
  unfold cacheGet
  rw [runOps_lookup]
  cases hlast : lastSetFor k ops with
  | none => simp
  | some op =>
    by_cases hexp : t - op.time > expiryOf op.customExpiry
    · simp [cacheValue.expired, hexp]
    · simp [cacheValue.expired, hexp]

/-- C7: the code evaluated at the short profiles URL of the spec: the
parse of 123 succeeds, the seventeen digit width check fails, and the
function returns the zero id with a nil error, because the source wraps
the err variable of the parse, which is nil at that point; no remote
call is made. The claim instead requires a non-nil error here. -/
theorem ResolveVanityURL_short_profile_nil_error :
    ResolveVanityURL (fun _ => (0, none)) "https://steamcommunity.com/profiles/123" =
      { id := 0, err := none, networkCalled := false } := by
  decide

/-- C8: setting a key whose byte length is neither zero nor thirty-two
returns an error and leaves the configured key unchanged; setting a key
of byte length thirty-two succeeds and that exact string becomes the
retrievable configured key. -/
theorem SetKey_validation (key prev : String) :
    (key.utf8ByteSize ≠ 0 → key.utf8ByteSize ≠ 32 →
      (SetKey key prev).1 ≠ none ∧ (SetKey key prev).2 = prev) ∧
    (key.utf8ByteSize = 32 →
      (SetKey key prev).1 = none ∧ Key (SetKey key prev).2 = key) := by
  constructor
  · intro h0 h32
    unfold SetKey
    rw [if_pos ⟨h32, h0⟩]
    exact ⟨by simp, rfl⟩
  · intro h32
    unfold SetKey Key
    rw [if_neg (fun h => h.1 h32)]
    exact ⟨rfl, rfl⟩

/-- Witness for C8 at a three character key and a thirty-two character
key. -/
theorem SetKey_validation_witness :
    ((SetKey "abc" "old").1 ≠ none ∧ (SetKey "abc" "old").2 = "old") ∧
    ((SetKey "abcdefghabcdefghabcdefghabcdefgh" "old").1 = none ∧
      Key (SetKey "abcdefghabcdefghabcdefghabcdefgh" "old").2 =
        "abcdefghabcdefghabcdefghabcdefgh") :=
  ⟨(SetKey_validation "abc" "old").1 (by decide) (by decide),
   (SetKey_validation "abcdefghabcdefghabcdefghabcdefgh" "old").2 (by decide)⟩

/-- C9: the code evaluated where the Do call of the transport fails, and
where the body read fails, with a valid group id: both failures are
silently swallowed, the function returning no members and a nil error,
because the source wraps the reqErr variable, which is nil at both
points. The claim instead requires a non-nil error in both cases. -/
theorem GetGroupMembers_swallows_failures :
    (GetGroupMembers
        { doResult := Except.error (GoErr.base "connection refused"),
          readResult := fun b => Except.ok b,
          captures := fun _ => [] }
        (fun _ => true) true = (none, none)) ∧
    (GetGroupMembers
        { doResult := Except.ok "x",
          readResult := fun _ => Except.error (GoErr.base "read failed"),
          captures := fun _ => [] }
        (fun _ => true) true = (none, none)) :=
  ⟨rfl, rfl⟩

/-- C10: a set followed by a get on the same key within the max age
reports found true but returns the boxed internal entry record, which is
never equal to the value that was stored. -/
theorem cacheGet_returns_entry_record (c : MemoryCache) (k : cacheKey) (v : GoValue)
    (exps : List Int) (t0 t : Int) (h : t - t0 ≤ expiryOf exps) :
    cacheGet (cacheSet c k v exps t0) k t = (GoValue.boxedCache t0 (expiryOf exps) v, true) ∧
      GoValue.boxedCache t0 (expiryOf exps) v ≠ v := by
  constructor
  · unfold cacheGet cacheSet
    simp [cacheValue.expired, boxCacheValue, not_lt.mpr h]
  · exact boxedCache_ne_value v t0 (expiryOf exps)

/-- Witness for C10 at a concrete key, payload and time within the
default expiry. -/
theorem cacheGet_returns_entry_record_witness :
    cacheGet (cacheSet (fun _ => none) cacheKey.ckApps (GoValue.payload 7) [] 0)
        cacheKey.ckApps 100 =
      (GoValue.boxedCache 0 900 (GoValue.payload 7), true) ∧
      GoValue.boxedCache 0 900 (GoValue.payload 7) ≠ GoValue.payload 7 :=
  cacheGet_returns_entry_record (fun _ => none) cacheKey.ckApps (GoValue.payload 7) [] 0 100
    (by decide)
